import Mathlib

/-!
Verification of the crawl core of the scientist-wiki-scraper repository.

The Python sources are shallowly embedded as Lean functions:
* `src/scraper/crawler.py` — `CrawlState`, `get_next_url`, `add_url`,
  `add_urls`, `mark_completed`, `log_failure`, `save_progress`,
  `load_progress`, and the constructor seeding logic (`crawler_init`).
* `src/scraper/fetcher.py` — the retry loop `fetch_with_retry`, with each
  HTTP attempt's outcome supplied as an environment value.
* `src/scraper/parser.py` — the error shape of `parse_article` and
  `extract_slug` (from `fetcher.py`).
* `src/scraper/manager.py` — the orchestrator main loop `run_loop`, with the
  combined fetch/classify/parse outcome of each URL supplied by an
  environment function.

Stateful Python methods become functions from state to state; external
effects (HTTP responses, file contents, exceptions raised by collaborators)
become explicit environment parameters.
-/

/-- A record of `crawler.py`'s `FailedUrl` pydantic model.  The wall-clock
timestamp is environment data; the embedding stores the empty string. -/
structure FailedUrl where
  url : String
  reason : String
  timestamp : String := ""
  deriving DecidableEq, Repr

/-- `crawler.py`'s `CrawlStatistics` model: three derived counters. -/
structure CrawlStatistics where
  total_completed : Nat := 0
  total_queued : Nat := 0
  total_failed : Nat := 0
  deriving DecidableEq, Repr

/-- `crawler.py`'s `CrawlState`: `completed` is a Python `set` (modelled as a
duplicate-free list maintained by `mark_completed`), `queued` is a FIFO
deque, `failed` an append-only log. -/
structure CrawlState where
  completed : List String := []
  queued : List String := []
  failed : List FailedUrl := []
  statistics : CrawlStatistics := {}
  deriving DecidableEq, Repr

/-- `Crawler.get_next_url`: `popleft` on the deque, `None` when empty. -/
def get_next_url (s : CrawlState) : Option String × CrawlState :=
  match s.queued with
  | [] => (none, s)
  | url :: rest => (some url, { s with queued := rest })

/-- `Crawler._add_url`: append to the queue iff the URL is neither completed
nor already queued. -/
def add_url (s : CrawlState) (url : String) : CrawlState :=
  if url ∉ s.completed ∧ url ∉ s.queued then
    { s with queued := s.queued ++ [url] }
  else s

/-- `Crawler.add_urls`: `_add_url` applied to each URL in input order. -/
def add_urls (s : CrawlState) (urls : List String) : CrawlState :=
  urls.foldl add_url s

/-- `Crawler.mark_completed`: `set.add` — insert if absent. -/
def mark_completed (s : CrawlState) (url : String) : CrawlState :=
  if url ∈ s.completed then s
  else { s with completed := s.completed ++ [url] }

/-- `Crawler.log_failure`: append a `FailedUrl` record. -/
def log_failure (s : CrawlState) (url reason : String) : CrawlState :=
  { s with failed := s.failed ++ [{ url := url, reason := reason }] }

/-- `Crawler._load_progress`: the checkpoint read from disk, or `none` when
the file is missing, empty or malformed (any of which leaves / resets the
state to the empty `CrawlState`). -/
def load_progress : Option CrawlState → CrawlState
  | none => {}
  | some data => data

/-- `Crawler.save_progress`: recompute the three statistics counters from
the live collections, then serialize the whole state.  The returned record
is the checkpoint written to disk. -/
def save_progress (s : CrawlState) : CrawlState :=
  { s with statistics :=
      { total_completed := s.completed.length
        total_queued := s.queued.length
        total_failed := s.failed.length } }

/-- The bootstrap seeds hard-coded in `Crawler.__init__`. -/
def seed_urls : List String :=
  ["/wiki/Albert_Einstein", "/wiki/Marie_Curie", "/wiki/Isaac_Newton",
   "/wiki/Charles_Darwin"]

/-- `Crawler.__init__`: load the checkpoint, then seed iff both the queue
and the completed set are empty. -/
def crawler_init (loaded : Option CrawlState) : CrawlState :=
  let s := load_progress loaded
  if s.queued = [] ∧ s.completed = [] then add_urls s seed_urls else s

/-! ### Operation sequences on the crawl state (for the dedup invariant) -/

/-- One externally visible mutation of the crawl state: `_add_url`,
`mark_completed`, or a `get_next_url` pop. -/
inductive CrawlOp where
  | enqueue (url : String)
  | markVisited (url : String)
  | dequeue
  deriving DecidableEq, Repr

/-- Apply one operation to the state. -/
def apply_op (s : CrawlState) : CrawlOp → CrawlState
  | .enqueue url => add_url s url
  | .markVisited url => mark_completed s url
  | .dequeue => (get_next_url s).2

/-- Apply a sequence of operations left to right. -/
def apply_ops (s : CrawlState) (ops : List CrawlOp) : CrawlState :=
  ops.foldl apply_op s

/-- The dedup invariant of spec §3: the frontier is duplicate-free and
disjoint from the visited set. -/
def DedupInv (s : CrawlState) : Prop :=
  s.queued.Nodup ∧ ∀ u ∈ s.completed, u ∉ s.queued

instance (s : CrawlState) : Decidable (DedupInv s) := by
  unfold DedupInv; infer_instance

/-- A sequence of operations is safe when every `markVisited` call targets a
URL that is not in the frontier at the moment of the call — exactly the
discipline the orchestrator follows (it only marks URLs it has popped). -/
def SafeOps : CrawlState → List CrawlOp → Prop
  | _, [] => True
  | s, op :: rest =>
      (∀ url, op = .markVisited url → url ∉ s.queued) ∧
        SafeOps (apply_op s op) rest

/-! ### Fetcher (`src/scraper/fetcher.py`) -/

/-- The retry settings of `config.py` (defaults: 5 attempts, initial
backoff 2 s, cap 32 s). -/
structure RetryConfig where
  max_retries : Nat := 5
  initial_backoff : Nat := 2
  max_backoff : Nat := 32
  deriving DecidableEq, Repr

/-- What one `session.get` attempt raises or returns: success, a
connection/timeout error, or an `HTTPError` carrying the status code and the
`Retry-After` header.  The header is `none` when absent, `some none` when
present but not parseable as an integer (`int()` raises `ValueError`), and
`some (some n)` when numeric. -/
inductive AttemptOutcome where
  | success
  | connError
  | httpError (status : Nat) (retryAfter : Option (Option Nat))
  deriving DecidableEq, Repr

/-- What `fetch_with_retry` delivers to its caller: the response, a
propagated exception, or the dead `raise Exception("Unreachable code")`
path (also used when the attempt environment is too short). -/
inductive FetchResult where
  | ok
  | errRaised (e : AttemptOutcome)
  | ranOut
  deriving DecidableEq, Repr

/-- The statuses `fetch_with_retry` treats as transient: `[429, 503]`. -/
def transient_status (s : Nat) : Bool :=
  s == 429 || s == 503

/-- The body of `fetch_with_retry`'s `for attempt in range(max_retries)`
loop.  `backoff` is the doubling counter, `remaining` the number of loop
iterations left (`remaining = 1` on the final attempt, where any exception
is re-raised before a sleep), and the list supplies each attempt's outcome.
Returns the result together with the list of `time.sleep` wait times in
order. -/
def fetch_loop (cfg : RetryConfig) : Nat → Nat → List AttemptOutcome →
    FetchResult × List Nat
  | _, 0, _ => (.ranOut, [])
  | _, _ + 1, [] => (.ranOut, [])
  | backoff, remaining + 1, outcome :: rest =>
    match outcome with
    | .success => (.ok, [])
    | .connError =>
      if remaining = 0 then (.errRaised .connError, [])
      else
        let wait := min backoff cfg.max_backoff
        let r := fetch_loop cfg (backoff * 2) remaining rest
        (r.1, wait :: r.2)
    | .httpError status retryAfter =>
      if remaining = 0 then (.errRaised (.httpError status retryAfter), [])
      else if transient_status status then
        match retryAfter with
        | some (some n) =>
          let r := fetch_loop cfg backoff remaining rest
          (r.1, n :: r.2)
        | _ =>
          let wait := min backoff cfg.max_backoff
          let r := fetch_loop cfg (backoff * 2) remaining rest
          (r.1, wait :: r.2)
      else (.errRaised (.httpError status retryAfter), [])

/-- `fetch_with_retry`: run the attempt loop starting from the configured
initial backoff. -/
def fetch_with_retry (cfg : RetryConfig) (attempts : List AttemptOutcome) :
    FetchResult × List Nat :=
  fetch_loop cfg cfg.initial_backoff cfg.max_retries attempts

/-! ### Parser (`src/scraper/parser.py`) -/

/-- The distinguishable outcomes of `parse_article`'s body on an input
file: the `open`/`read` raised, BeautifulSoup / extraction raised,
`clean_content` found no content container, or extraction succeeded with
the given words blob and link list. -/
inductive ParseOutcome where
  | readError
  | parseRaised
  | noContent
  | ok (words : String) (links : List String)
  deriving DecidableEq, Repr

/-- `parse_article`: every failure path — the outer `try/except` and the
`if not content` guard — returns `("", [])` instead of raising. -/
def parse_article : ParseOutcome → String × List String
  | .readError => ("", [])
  | .parseRaised => ("", [])
  | .noContent => ("", [])
  | .ok words links => (words, links)

/-- `fetcher.extract_slug` on a path-form URL: `str.replace('/wiki/', '')`
applied when the path starts with `/wiki/`. -/
def extract_slug (url : String) : String :=
  if url.startsWith "/wiki/" then url.replace "/wiki/" "" else url

/-! ### Orchestrator (`src/scraper/manager.py`) -/

/-- The combined outcome of processing one URL inside the `try` block of
`main`'s loop: `fetch_article` returned `None`; `is_scientist_article`
said no; an exception escaped (e.g. from `save_processed_data`); or the
page was fetched, classified as a scientist and parsed into
`(words, links)`. -/
inductive PageResult where
  | fetchFail
  | notScientist
  | raises (msg : String)
  | accept (words : String) (links : List String)
  deriving DecidableEq, Repr

/-- A URL is accept-eligible under an environment when processing it
succeeds end to end. -/
def eligible (env : String → PageResult) (url : String) : Bool :=
  match env url with
  | .accept _ _ => true
  | _ => false

/-- Why the main loop stopped. -/
inductive StopReason where
  | doneQuota
  | doneEmpty
  | outOfFuel
  deriving DecidableEq, Repr

/-- The observable result of a run: final crawl state, the session-accepted
counter, the `save_processed_data` records written (slug, words, links),
and the stop reason. -/
structure RunResult where
  crawler : CrawlState
  collected : Nat
  artifacts : List (String × String × List String)
  stop : StopReason
  deriving Repr

/-- `manager.main`'s `while True` loop.  Each iteration: quota check, pop
(`if not url` also stops on the falsy empty string), then dispatch on the
environment's outcome for the URL exactly as the Python body does —
including the per-iteration `except` handler that logs the failure and
marks the URL completed.  `fuel` bounds the number of iterations so the
function is total; a genuine run corresponds to enough fuel. -/
def run_loop (env : String → PageResult) (target : Nat) :
    Nat → CrawlState → Nat → List (String × String × List String) → RunResult
  | 0, s, col, arts => ⟨s, col, arts, .outOfFuel⟩
  | fuel + 1, s, col, arts =>
    if target ≤ col then ⟨s, col, arts, .doneQuota⟩
    else
      match s.queued with
      | [] => ⟨s, col, arts, .doneEmpty⟩
      | url :: rest =>
        if url = "" then ⟨{ s with queued := rest }, col, arts, .doneEmpty⟩
        else
          match env url with
          | .fetchFail =>
            run_loop env target fuel
              (mark_completed
                (log_failure { s with queued := rest } url "Download failed")
                url) col arts
          | .notScientist =>
            run_loop env target fuel
              (mark_completed { s with queued := rest } url) col arts
          | .raises msg =>
            run_loop env target fuel
              (mark_completed (log_failure { s with queued := rest } url msg)
                url) col arts
          | .accept words links =>
            run_loop env target fuel
              (mark_completed (add_urls { s with queued := rest } links) url)
              (col + 1) (arts ++ [(extract_slug url, words, links)])

/-! ### Helper lemmas about the crawl-state operations -/

lemma mark_completed_queued (s : CrawlState) (u : String) :
    (mark_completed s u).queued = s.queued := by
  unfold mark_completed; split <;> rfl

lemma mark_completed_failed (s : CrawlState) (u : String) :
    (mark_completed s u).failed = s.failed := by
  unfold mark_completed; split <;> rfl

lemma mark_completed_mem (s : CrawlState) (u : String) :
    u ∈ (mark_completed s u).completed := by
  unfold mark_completed
  split
  · assumption
  · simp

lemma mark_completed_count (s : CrawlState) (u : String) (h : u ∉ s.completed) :
    (mark_completed s u).completed.count u = 1 := by
  unfold mark_completed
  rw [if_neg h]
  simp [List.count_append, List.count_eq_zero.mpr h]

lemma add_url_completed (s : CrawlState) (u : String) :
    (add_url s u).completed = s.completed := by
  unfold add_url; split <;> rfl

lemma add_url_queued_pos (s : CrawlState) (u : String) (h1 : u ∉ s.completed)
    (h2 : u ∉ s.queued) : (add_url s u).queued = s.queued ++ [u] := by
  unfold add_url; rw [if_pos ⟨h1, h2⟩]

lemma add_urls_cons (s : CrawlState) (l : String) (ls : List String) :
    add_urls s (l :: ls) = add_urls (add_url s l) ls := rfl

lemma add_urls_completed (links : List String) :
    ∀ s : CrawlState, (add_urls s links).completed = s.completed := by
  induction links with
  | nil => intro s; rfl
  | cons l ls ih => intro s; rw [add_urls_cons, ih, add_url_completed]

lemma add_urls_queued_ext (links : List String) :
    ∀ s : CrawlState, ∃ ext, (add_urls s links).queued = s.queued ++ ext := by
  induction links with
  | nil => intro s; exact ⟨[], by simp [add_urls]⟩
  | cons l ls ih =>
    intro s
    rw [add_urls_cons]
    obtain ⟨ext, hext⟩ := ih (add_url s l)
    by_cases hc : l ∉ s.completed ∧ l ∉ s.queued
    · refine ⟨l :: ext, ?_⟩
      rw [hext, add_url_queued_pos s l hc.1 hc.2]
      simp
    · refine ⟨ext, ?_⟩
      rw [hext]
      unfold add_url
      rw [if_neg hc]

lemma get_next_url_nil (t : CrawlState) (h : t.queued = []) :
    get_next_url t = (none, t) := by
  unfold get_next_url; rw [h]

lemma get_next_url_cons (s : CrawlState) (u : String) (rest : List String)
    (h : s.queued = u :: rest) :
    get_next_url s = (some u, { s with queued := rest }) := by
  unfold get_next_url; rw [h]

lemma apply_op_nodup (s : CrawlState) (op : CrawlOp) (h : s.queued.Nodup) :
    (apply_op s op).queued.Nodup := by
  cases op with
  | enqueue url =>
    show (add_url s url).queued.Nodup
    unfold add_url
    split
    · rename_i hc
      simp [List.nodup_append, h, hc.2]
    · exact h
  | markVisited url =>
    show (mark_completed s url).queued.Nodup
    rw [mark_completed_queued]
    exact h
  | dequeue =>
    show (get_next_url s).2.queued.Nodup
    unfold get_next_url
    cases hq : s.queued with
    | nil => exact h
    | cons a rest =>
      rw [hq] at h
      exact h.of_cons

lemma apply_op_inv (s : CrawlState) (op : CrawlOp) (h : DedupInv s)
    (hsafe : ∀ url, op = .markVisited url → url ∉ s.queued) :
    DedupInv (apply_op s op) := by
  obtain ⟨hnd, hdisj⟩ := h
  cases op with
  | enqueue url =>
    show DedupInv (add_url s url)
    unfold add_url
    split
    · rename_i hc
      constructor
      · simp [List.nodup_append, hnd, hc.2]
      · intro u hu
        simp only [List.mem_append, List.mem_singleton]
        push_neg
        exact ⟨hdisj u hu, fun he => hc.1 (he ▸ hu)⟩
    · exact ⟨hnd, hdisj⟩
  | markVisited url =>
    have hnq : url ∉ s.queued := hsafe url rfl
    show DedupInv (mark_completed s url)
    unfold mark_completed
    split
    · exact ⟨hnd, hdisj⟩
    · constructor
      · exact hnd
      · intro u hu
        rcases List.mem_append.mp hu with h1 | h2
        · exact hdisj u h1
        · rw [List.mem_singleton.mp h2]; exact hnq
  | dequeue =>
    show DedupInv (get_next_url s).2
    unfold get_next_url
    cases hq : s.queued with
    | nil => exact ⟨by rw [hq]; exact List.nodup_nil, fun u hu => by rw [hq]; simp⟩
    | cons a rest =>
      constructor
      · rw [hq] at hnd; exact hnd.of_cons
      · intro u hu
        have := hdisj u hu
        rw [hq] at this
        exact fun hr => this (List.mem_cons_of_mem a hr)

lemma apply_ops_nodup (ops : List CrawlOp) :
    ∀ s : CrawlState, s.queued.Nodup → (apply_ops s ops).queued.Nodup := by
  induction ops with
  | nil => exact fun _ h => h
  | cons op rest ih => exact fun s h => ih _ (apply_op_nodup s op h)

lemma apply_ops_inv (ops : List CrawlOp) :
    ∀ s : CrawlState, DedupInv s → SafeOps s ops → DedupInv (apply_ops s ops) := by
  induction ops with
  | nil => exact fun _ h _ => h
  | cons op rest ih =>
    intro s h hsafe
    obtain ⟨h1, h2⟩ := hsafe
    exact ih _ (apply_op_inv s op h h1) h2

/-! ### Claim theorems -/

/-- C1 (counterexample): the claimed invariant fails for unrestricted
`enqueue`/`mark_visited` sequences.  Starting from a freshly constructed
crawler, enqueueing `/wiki/A` and then calling `mark_completed("/wiki/A")`
leaves `/wiki/A` in the visited set and in the frontier simultaneously,
because `mark_completed` never removes the URL from the queue. -/
theorem dedup_invariant_counterexample :
    "/wiki/A" ∈ (apply_ops (crawler_init none)
        [.enqueue "/wiki/A", .markVisited "/wiki/A"]).completed ∧
    "/wiki/A" ∈ (apply_ops (crawler_init none)
        [.enqueue "/wiki/A", .markVisited "/wiki/A"]).queued := by
  decide

/-- C1 (amended): for every sequence of `enqueue`/`mark_visited`/`dequeue`
calls starting from a state satisfying the dedup invariant, no URL ever
appears twice in the frontier; and provided every `mark_visited` call
targets a URL not currently in the frontier — the discipline the
orchestrator follows, marking only popped URLs — no URL appears in both
`visited` and `frontier` simultaneously. -/
theorem dedup_invariant_preserved (s : CrawlState) (ops : List CrawlOp)
    (h : DedupInv s) :
    (apply_ops s ops).queued.Nodup ∧
      (SafeOps s ops → DedupInv (apply_ops s ops)) :=
  ⟨apply_ops_nodup ops s h.1, fun hs => apply_ops_inv ops s h hs⟩

/-- Witness for `dedup_invariant_preserved` on a freshly seeded crawler and
a concrete operation sequence. -/
theorem dedup_invariant_preserved_witness :
    (apply_ops (crawler_init none)
        [.enqueue "/wiki/A", .dequeue, .markVisited "/wiki/Albert_Einstein"]).queued.Nodup ∧
    DedupInv (apply_ops (crawler_init none)
        [.enqueue "/wiki/A", .dequeue, .markVisited "/wiki/Albert_Einstein"]) := by
  have h := dedup_invariant_preserved (crawler_init none)
    [.enqueue "/wiki/A", .dequeue, .markVisited "/wiki/Albert_Einstein"]
    (by decide)
  have hsafe : SafeOps (crawler_init none)
      [.enqueue "/wiki/A", .dequeue, .markVisited "/wiki/Albert_Einstein"] := by
    refine And.intro (fun url hx => nomatch hx) (And.intro
      (fun url hx => nomatch hx) (And.intro (fun url hx => ?_) trivial))
    injection hx with h2
    subst h2
    decide
  exact ⟨h.1, h.2 hsafe⟩

/-- C5: `save_progress` followed by `_load_progress` reproduces the same
visited collection and the same frontier sequence in the same order, and
the statistics stored at save time are the recomputed sizes of `completed`,
`queued` and `failed` — independent of whatever counters were stored
before. -/
theorem checkpoint_roundtrip (s : CrawlState)
    (h1 : s.completed ≠ []) (h2 : s.queued ≠ []) (h3 : s.failed ≠ []) :
    (load_progress (some (save_progress s))).completed = s.completed ∧
    (load_progress (some (save_progress s))).queued = s.queued ∧
    (save_progress s).statistics =
      { total_completed := s.completed.length
        total_queued := s.queued.length
        total_failed := s.failed.length } :=
  ⟨rfl, rfl, rfl⟩

/-- A non-trivial state whose stored statistics are deliberately wrong. -/
def sample_state : CrawlState :=
  { completed := ["/wiki/Albert_Einstein"]
    queued := ["/wiki/Marie_Curie"]
    failed := [{ url := "/wiki/X", reason := "Download failed" }]
    statistics := { total_completed := 99, total_queued := 99, total_failed := 99 } }

/-- Witness for `checkpoint_roundtrip`: the stale counters 99 are replaced
by the recomputed sizes 1/1/1 while the collections round-trip. -/
theorem checkpoint_roundtrip_witness :
    (load_progress (some (save_progress sample_state))).completed =
        ["/wiki/Albert_Einstein"] ∧
    (load_progress (some (save_progress sample_state))).queued =
        ["/wiki/Marie_Curie"] ∧
    (save_progress sample_state).statistics =
      { total_completed := 1, total_queued := 1, total_failed := 1 } :=
  checkpoint_roundtrip sample_state (by decide) (by decide) (by decide)

/-- C6: enqueueing three previously unseen, pairwise distinct URLs into an
empty-frontier crawler yields them back in strict FIFO order over three
successive `get_next_url` calls, and `get_next_url` on an empty frontier
returns `none` without modifying the state. -/
theorem fifo_order (s : CrawlState) (A B C : String)
    (hq : s.queued = []) (hA : A ∉ s.completed) (hB : B ∉ s.completed)
    (hC : C ∉ s.completed) (hAB : A ≠ B) (hAC : A ≠ C) (hBC : B ≠ C) :
    (add_urls s [A, B, C]).queued = [A, B, C] ∧
    (get_next_url (add_urls s [A, B, C])).1 = some A ∧
    (get_next_url (get_next_url (add_urls s [A, B, C])).2).1 = some B ∧
    (get_next_url (get_next_url (get_next_url
        (add_urls s [A, B, C])).2).2).1 = some C ∧
    (∀ t : CrawlState, t.queued = [] → get_next_url t = (none, t)) := by
  have e1c : (add_url s A).completed = s.completed := add_url_completed s A
  have e1q : (add_url s A).queued = [A] := by
    rw [add_url_queued_pos s A hA (by rw [hq]; exact List.not_mem_nil A), hq]
    rfl
  have e2c : (add_url (add_url s A) B).completed = s.completed := by
    rw [add_url_completed, e1c]
  have e2q : (add_url (add_url s A) B).queued = [A, B] := by
    rw [add_url_queued_pos _ B (by rw [e1c]; exact hB)
      (by rw [e1q]; simpa using Ne.symm hAB), e1q]
    rfl
  have e3q : (add_url (add_url (add_url s A) B) C).queued = [A, B, C] := by
    rw [add_url_queued_pos _ C (by rw [e2c]; exact hC)
      (by rw [e2q]; simpa using ⟨Ne.symm hAC, Ne.symm hBC⟩), e2q]
    rfl
  have h3 : (add_urls s [A, B, C]).queued = [A, B, C] := e3q
  have g1 := get_next_url_cons (add_urls s [A, B, C]) A [B, C] h3
  have g2 := get_next_url_cons { add_urls s [A, B, C] with queued := [B, C] }
    B [C] rfl
  have g3 := get_next_url_cons { add_urls s [A, B, C] with queued := [C] }
    C [] rfl
  refine ⟨h3, ?_, ?_, ?_, get_next_url_nil⟩
  · rw [g1]
  · rw [g1]
    dsimp only
    rw [g2]
  · rw [g1]
    dsimp only
    rw [g2]
    dsimp only
    rw [g3]

/-- Witness for `fifo_order` at a concrete state and three concrete URLs. -/
theorem fifo_order_witness :
    (add_urls { completed := ["/wiki/D"] }
        ["/wiki/A", "/wiki/B", "/wiki/C"]).queued =
      ["/wiki/A", "/wiki/B", "/wiki/C"] ∧
    (get_next_url (add_urls { completed := ["/wiki/D"] }
        ["/wiki/A", "/wiki/B", "/wiki/C"])).1 = some "/wiki/A" ∧
    (get_next_url (get_next_url (add_urls { completed := ["/wiki/D"] }
        ["/wiki/A", "/wiki/B", "/wiki/C"])).2).1 = some "/wiki/B" ∧
    (get_next_url (get_next_url (get_next_url (add_urls
        { completed := ["/wiki/D"] }
        ["/wiki/A", "/wiki/B", "/wiki/C"])).2).2).1 = some "/wiki/C" ∧
    get_next_url ({} : CrawlState) = (none, {}) := by
  have h := fifo_order { completed := ["/wiki/D"] } "/wiki/A" "/wiki/B" "/wiki/C"
    (by decide) (by decide) (by decide) (by decide) (by decide) (by decide)
    (by decide)
  exact ⟨h.1, h.2.1, h.2.2.1, h.2.2.2.1, h.2.2.2.2 {} rfl⟩

/-- C7: enqueueing a URL that is already visited or already queued leaves
the state unchanged; `_add_url` never touches the visited set; and the URL
is appended to the frontier iff it is in neither collection. -/
theorem enqueue_spec (s : CrawlState) (url : String) :
    ((url ∈ s.completed ∨ url ∈ s.queued) → add_url s url = s) ∧
    (add_url s url).completed = s.completed ∧
    ((add_url s url).queued = s.queued ++ [url] ↔
      url ∉ s.completed ∧ url ∉ s.queued) := by
  refine ⟨?_, add_url_completed s url, ?_, ?_⟩
  · intro h
    unfold add_url
    have hc : ¬(url ∉ s.completed ∧ url ∉ s.queued) := by
      intro hc
      rcases h with h' | h'
      · exact hc.1 h'
      · exact hc.2 h'
    rw [if_neg hc]
  · intro heq
    by_contra hc
    unfold add_url at heq
    rw [if_neg hc] at heq
    have := congrArg List.length heq
    simp at this
  · intro hc
    exact add_url_queued_pos s url hc.1 hc.2

/-- Witness for `enqueue_spec`: re-enqueueing a queued URL is a no-op, and
a fresh URL is appended. -/
theorem enqueue_spec_witness :
    add_url { queued := ["/wiki/A"] } "/wiki/A" =
      ({ queued := ["/wiki/A"] } : CrawlState) ∧
    (add_url ({ queued := ["/wiki/A"] } : CrawlState) "/wiki/B").queued =
      ["/wiki/A"] ++ ["/wiki/B"] :=
  ⟨(enqueue_spec { queued := ["/wiki/A"] } "/wiki/A").1 (Or.inr (by decide)),
   (enqueue_spec { queued := ["/wiki/A"] } "/wiki/B").2.2.mpr
     ⟨by decide, by decide⟩⟩

/-! ### Fetcher lemmas -/

lemma fetch_loop_success (cfg : RetryConfig) (b r : Nat)
    (rest : List AttemptOutcome) :
    fetch_loop cfg b (r + 1) (.success :: rest) = (.ok, []) := by
  simp [fetch_loop]

lemma fetch_loop_conn_step (cfg : RetryConfig) (b r : Nat)
    (rest : List AttemptOutcome) (hr : r ≠ 0) :
    fetch_loop cfg b (r + 1) (.connError :: rest) =
      ((fetch_loop cfg (b * 2) r rest).1,
        min b cfg.max_backoff :: (fetch_loop cfg (b * 2) r rest).2) := by
  simp only [fetch_loop]
  rw [if_neg hr]

lemma fetch_loop_retry_after_step (cfg : RetryConfig) (b r ra : Nat)
    (rest : List AttemptOutcome) (hr : r ≠ 0) :
    fetch_loop cfg b (r + 1) (.httpError 429 (some (some ra)) :: rest) =
      ((fetch_loop cfg b r rest).1, ra :: (fetch_loop cfg b r rest).2) := by
  simp only [fetch_loop]
  rw [if_neg hr]
  simp [transient_status]

lemma fetch_loop_conn_waits (cfg : RetryConfig) :
    ∀ (n b rem : Nat) (rest : List AttemptOutcome), n < rem →
      fetch_loop cfg b rem (List.replicate n .connError ++ .success :: rest) =
        (.ok, (List.range n).map fun k => min (b * 2 ^ k) cfg.max_backoff) := by
  intro n
  induction n with
  | zero =>
    intro b rem rest h
    obtain ⟨r, rfl⟩ : ∃ r, rem = r + 1 := ⟨rem - 1, by omega⟩
    simp [fetch_loop]
  | succ n ih =>
    intro b rem rest h
    obtain ⟨r, rfl⟩ : ∃ r, rem = r + 1 := ⟨rem - 1, by omega⟩
    rw [List.replicate_succ, List.cons_append,
      fetch_loop_conn_step cfg b r _ (by omega),
      ih (b * 2) r rest (by omega)]
    have hlist : (List.range (n + 1)).map
        (fun k => min (b * 2 ^ k) cfg.max_backoff) =
        min b cfg.max_backoff ::
          (List.range n).map (fun k => min (b * 2 * 2 ^ k) cfg.max_backoff) := by
      rw [List.range_succ_eq_map, List.map_cons, List.map_map]
      have hfun : ((fun k => min (b * 2 ^ k) cfg.max_backoff) ∘ Nat.succ) =
          fun k => min (b * 2 * 2 ^ k) cfg.max_backoff := by
        funext k
        simp only [Function.comp_apply]
        congr 1
        rw [pow_succ]
        ring
      rw [hfun]
      congr 1
      simp
    rw [hlist]

/-- C2: with `n` consecutive transient connection failures the wait times
are exactly `min(initial_backoff * 2^k, max_backoff)` for `k = 0 .. n-1` —
they start at the configured initial backoff, double on each retried
attempt, and are capped at the configured maximum; with the configured
values (initial 2, cap 32) three consecutive failures wait `2, 4, 8`; a
429 response carrying a numeric `Retry-After: ra` makes the next wait
exactly `ra` and does not double the backoff counter, so the following
standard wait is still the (capped) initial backoff. -/
theorem backoff_schedule (cfg : RetryConfig) (n ra : Nat)
    (hn : n < cfg.max_retries) (hcap : 2 < cfg.max_retries) :
    (fetch_with_retry cfg (List.replicate n .connError ++ [.success])).2 =
      (List.range n).map
        (fun k => min (cfg.initial_backoff * 2 ^ k) cfg.max_backoff) ∧
    (fetch_with_retry { max_retries := 5, initial_backoff := 2, max_backoff := 32 }
        (List.replicate 3 .connError ++ [.success])).2 = [2, 4, 8] ∧
    (fetch_with_retry cfg
        [.httpError 429 (some (some ra)), .connError, .success]).2 =
      [ra, min cfg.initial_backoff cfg.max_backoff] := by
  refine ⟨?_, by decide, ?_⟩
  · show (fetch_loop cfg cfg.initial_backoff cfg.max_retries
        (List.replicate n .connError ++ [.success])).2 = _
    rw [fetch_loop_conn_waits cfg n cfg.initial_backoff cfg.max_retries [] hn]
  · show (fetch_loop cfg cfg.initial_backoff cfg.max_retries
        [.httpError 429 (some (some ra)), .connError, .success]).2 = _
    have hk : cfg.max_retries = (cfg.max_retries - 3 + 2) + 1 := by omega
    rw [hk,
      fetch_loop_retry_after_step cfg cfg.initial_backoff _ ra _ (by omega)]
    dsimp only
    rw [show cfg.max_retries - 3 + 2 = (cfg.max_retries - 3 + 1) + 1 from rfl,
      fetch_loop_conn_step cfg cfg.initial_backoff _ _ (by omega)]
    dsimp only
    rw [fetch_loop_success]

/-- Witness for `backoff_schedule` with the configured defaults and a
`Retry-After` of 10 seconds. -/
theorem backoff_schedule_witness :
    (fetch_with_retry { max_retries := 5, initial_backoff := 2, max_backoff := 32 }
        (List.replicate 3 .connError ++ [.success])).2 =
      (List.range 3).map (fun k => min (2 * 2 ^ k) 32) ∧
    (fetch_with_retry { max_retries := 5, initial_backoff := 2, max_backoff := 32 }
        (List.replicate 3 .connError ++ [.success])).2 = [2, 4, 8] ∧
    (fetch_with_retry { max_retries := 5, initial_backoff := 2, max_backoff := 32 }
        [.httpError 429 (some (some 10)), .connError, .success]).2 =
      [10, min 2 32] :=
  backoff_schedule { max_retries := 5, initial_backoff := 2, max_backoff := 32 }
    3 10 (by decide) (by decide)

/-- C8: an HTTP failure whose status is a 4xx other than 429 and 503 is
permanent — no matter how many attempts remain, `fetch_with_retry` raises
it to the caller at once: the loop consumes no further attempt and sleeps
for no backoff (the wait list is empty). -/
theorem permanent_no_retry (cfg : RetryConfig) (b rem status : Nat)
    (ra : Option (Option Nat)) (rest : List AttemptOutcome)
    (h4 : 400 ≤ status) (h5 : status < 500)
    (h429 : status ≠ 429) (h503 : status ≠ 503) (hrem : 0 < rem) :
    fetch_loop cfg b rem (.httpError status ra :: rest) =
      (.errRaised (.httpError status ra), []) := by
  obtain ⟨r, rfl⟩ : ∃ r, rem = r + 1 := ⟨rem - 1, by omega⟩
  have ht : transient_status status = false := by
    simp [transient_status, h429, h503]
  simp [fetch_loop, ht]

/-- Witness for `permanent_no_retry`: a 404 on the first of five attempts
is propagated immediately with no sleeps. -/
theorem permanent_no_retry_witness :
    fetch_loop { max_retries := 5, initial_backoff := 2, max_backoff := 32 }
        2 5 [.httpError 404 none] =
      (.errRaised (.httpError 404 none), []) :=
  permanent_no_retry { max_retries := 5, initial_backoff := 2, max_backoff := 32 }
    2 5 404 none [] (by decide) (by decide) (by decide) (by decide) (by decide)

/-! ### Orchestrator lemmas -/

lemma log_failure_queued (s : CrawlState) (u r : String) :
    (log_failure s u r).queued = s.queued := rfl

lemma run_loop_quota_stop (env : String → PageResult) (target fuel col : Nat)
    (s : CrawlState) (arts : List (String × String × List String))
    (h : target ≤ col) :
    run_loop env target (fuel + 1) s col arts = ⟨s, col, arts, .doneQuota⟩ := by
  simp only [run_loop]
  rw [if_pos h]

lemma run_loop_empty_stop (env : String → PageResult) (target fuel col : Nat)
    (s : CrawlState) (arts : List (String × String × List String))
    (hcol : col < target) (hq : s.queued = []) :
    run_loop env target (fuel + 1) s col arts = ⟨s, col, arts, .doneEmpty⟩ := by
  simp only [run_loop]
  rw [if_neg (Nat.not_le.mpr hcol), hq]

lemma run_loop_step_fetchFail (env : String → PageResult) (target fuel col : Nat)
    (s : CrawlState) (arts : List (String × String × List String))
    (u : String) (rest : List String)
    (hq : s.queued = u :: rest) (hu : u ≠ "") (hcol : col < target)
    (henv : env u = .fetchFail) :
    run_loop env target (fuel + 1) s col arts =
      run_loop env target fuel
        (mark_completed (log_failure { s with queued := rest } u "Download failed") u)
        col arts := by
  simp only [run_loop]
  rw [if_neg (Nat.not_le.mpr hcol), hq]
  dsimp only
  rw [if_neg hu, henv]

lemma run_loop_step_notScientist (env : String → PageResult)
    (target fuel col : Nat) (s : CrawlState)
    (arts : List (String × String × List String)) (u : String)
    (rest : List String)
    (hq : s.queued = u :: rest) (hu : u ≠ "") (hcol : col < target)
    (henv : env u = .notScientist) :
    run_loop env target (fuel + 1) s col arts =
      run_loop env target fuel (mark_completed { s with queued := rest } u)
        col arts := by
  simp only [run_loop]
  rw [if_neg (Nat.not_le.mpr hcol), hq]
  dsimp only
  rw [if_neg hu, henv]

lemma run_loop_step_raises (env : String → PageResult) (target fuel col : Nat)
    (s : CrawlState) (arts : List (String × String × List String))
    (u : String) (rest : List String) (msg : String)
    (hq : s.queued = u :: rest) (hu : u ≠ "") (hcol : col < target)
    (henv : env u = .raises msg) :
    run_loop env target (fuel + 1) s col arts =
      run_loop env target fuel
        (mark_completed (log_failure { s with queued := rest } u msg) u)
        col arts := by
  simp only [run_loop]
  rw [if_neg (Nat.not_le.mpr hcol), hq]
  dsimp only
  rw [if_neg hu, henv]

lemma run_loop_step_accept (env : String → PageResult) (target fuel col : Nat)
    (s : CrawlState) (arts : List (String × String × List String))
    (u : String) (rest : List String) (w : String) (links : List String)
    (hq : s.queued = u :: rest) (hu : u ≠ "") (hcol : col < target)
    (henv : env u = .accept w links) :
    run_loop env target (fuel + 1) s col arts =
      run_loop env target fuel
        (mark_completed (add_urls { s with queued := rest } links) u)
        (col + 1) (arts ++ [(extract_slug u, w, links)]) := by
  simp only [run_loop]
  rw [if_neg (Nat.not_le.mpr hcol), hq]
  dsimp only
  rw [if_neg hu, henv]

lemma run_loop_quota (env : String → PageResult) (target : Nat) :
    ∀ (fuel : Nat) (s : CrawlState) (col : Nat)
      (arts : List (String × String × List String)) (m : Nat),
      col ≤ target → m ≤ s.queued.length →
      target - col ≤ (s.queued.take m).countP (eligible env) →
      "" ∉ s.queued.take m → m + 1 ≤ fuel →
      (run_loop env target fuel s col arts).stop = .doneQuota ∧
      (run_loop env target fuel s col arts).collected = target := by
  intro fuel
  induction fuel with
  | zero => intro s col arts m _ _ _ _ hf; omega
  | succ f ih =>
    intro s col arts m hcol hm helig hne hf
    by_cases hquota : target ≤ col
    · rw [run_loop_quota_stop env target f col s arts hquota]
      exact ⟨rfl, by simp only; omega⟩
    · have hcol' : col < target := by omega
      cases hq : s.queued with
      | nil =>
        rw [hq] at helig
        simp at helig
        omega
      | cons u rest =>
        cases m with
        | zero =>
          simp only [List.take_zero, List.countP_nil] at helig
          omega
        | succ m' =>
          rw [hq] at helig hne hm
          rw [List.take_succ_cons] at helig hne
          have hu : u ≠ "" := fun h => hne (by rw [h]; exact List.mem_cons_self _ _)
          have hne' : "" ∉ rest.take m' := fun h => hne (List.mem_cons_of_mem _ h)
          have hm' : m' ≤ rest.length := by
            simp only [List.length_cons] at hm
            omega
          cases henv : env u with
          | fetchFail =>
            rw [run_loop_step_fetchFail env target f col s arts u rest hq hu hcol' henv]
            have he : eligible env u = false := by simp [eligible, henv]
            have hq2 : (mark_completed
                (log_failure { s with queued := rest } u "Download failed") u).queued =
                rest := by
              rw [mark_completed_queued, log_failure_queued]
            refine ih _ col arts m' hcol ?_ ?_ ?_ (by omega)
            · rw [hq2]; exact hm'
            · rw [hq2]
              rw [List.countP_cons, he] at helig
              simpa using helig
            · rw [hq2]; exact hne'
          | notScientist =>
            rw [run_loop_step_notScientist env target f col s arts u rest hq hu hcol' henv]
            have he : eligible env u = false := by simp [eligible, henv]
            have hq2 : (mark_completed { s with queued := rest } u).queued = rest := by
              rw [mark_completed_queued]
            refine ih _ col arts m' hcol ?_ ?_ ?_ (by omega)
            · rw [hq2]; exact hm'
            · rw [hq2]
              rw [List.countP_cons, he] at helig
              simpa using helig
            · rw [hq2]; exact hne'
          | raises msg =>
            rw [run_loop_step_raises env target f col s arts u rest msg hq hu hcol' henv]
            have he : eligible env u = false := by simp [eligible, henv]
            have hq2 : (mark_completed (log_failure { s with queued := rest } u msg) u).queued =
                rest := by
              rw [mark_completed_queued, log_failure_queued]
            refine ih _ col arts m' hcol ?_ ?_ ?_ (by omega)
            · rw [hq2]; exact hm'
            · rw [hq2]
              rw [List.countP_cons, he] at helig
              simpa using helig
            · rw [hq2]; exact hne'
          | accept w links =>
            rw [run_loop_step_accept env target f col s arts u rest w links hq hu hcol' henv]
            have he : eligible env u = true := by simp [eligible, henv]
            obtain ⟨ext, hext⟩ := add_urls_queued_ext links { s with queued := rest }
            have hq2 : (mark_completed (add_urls { s with queued := rest } links) u).queued =
                rest ++ ext := by
              rw [mark_completed_queued, hext]
            refine ih _ (col + 1) _ m' (by omega) ?_ ?_ ?_ (by omega)
            · rw [hq2, List.length_append]
              omega
            · rw [hq2, List.take_append_of_le_length hm']
              rw [List.countP_cons, he] at helig
              simp only [if_true] at helig
              omega
            · rw [hq2, List.take_append_of_le_length hm']
              exact hne'

lemma crawler_init_eq (loaded : Option CrawlState) :
    crawler_init loaded =
      if (load_progress loaded).queued = [] ∧ (load_progress loaded).completed = []
      then add_urls (load_progress loaded) seed_urls
      else load_progress loaded := rfl

lemma add_urls_seed (s : CrawlState) (hq : s.queued = []) (hc : s.completed = []) :
    (add_urls s seed_urls).queued = seed_urls := by
  obtain ⟨comp, qd, fl, st⟩ := s
  have hq' : qd = [] := hq
  have hc' : comp = [] := hc
  subst hq'
  subst hc'
  rfl

/-- C3: whenever the frontier holds at least `target` accept-eligible URLs
(and, as in every real run, no falsy empty-string URL) and the loop is
given enough fuel, the orchestrator accepts exactly `target` articles and
stops through the quota check (`DONE_QUOTA`); moreover a fetch failure or a
classifier rejection recurses with the session-accepted counter
unchanged. -/
theorem quota_termination (env : String → PageResult) (target fuel : Nat)
    (s : CrawlState)
    (helig : target ≤ s.queued.countP (eligible env))
    (hne : "" ∉ s.queued)
    (hfuel : s.queued.length + 1 ≤ fuel) :
    ((run_loop env target fuel s 0 []).stop = .doneQuota ∧
      (run_loop env target fuel s 0 []).collected = target) ∧
    (∀ (f2 col2 : Nat) (s2 : CrawlState)
        (arts2 : List (String × String × List String)) (u : String)
        (rest : List String), s2.queued = u :: rest → u ≠ "" → col2 < target →
      (env u = .fetchFail →
        run_loop env target (f2 + 1) s2 col2 arts2 =
          run_loop env target f2
            (mark_completed
              (log_failure { s2 with queued := rest } u "Download failed") u)
            col2 arts2) ∧
      (env u = .notScientist →
        run_loop env target (f2 + 1) s2 col2 arts2 =
          run_loop env target f2 (mark_completed { s2 with queued := rest } u)
            col2 arts2)) := by
  constructor
  · refine run_loop_quota env target fuel s 0 [] s.queued.length (by omega)
      le_rfl ?_ ?_ hfuel
    · rw [List.take_length]
      simpa using helig
    · rw [List.take_length]
      exact hne
  · intro f2 col2 s2 arts2 u rest hq hu hcol
    exact ⟨fun henv =>
        run_loop_step_fetchFail env target f2 col2 s2 arts2 u rest hq hu hcol henv,
      fun henv =>
        run_loop_step_notScientist env target f2 col2 s2 arts2 u rest hq hu hcol henv⟩

/-- A concrete environment: `/wiki/Marie_Curie` is an accepted scientist
page, `/wiki/X` fails to download, everything else is rejected by the
classifier. -/
def sample_env : String → PageResult := fun u =>
  if u = "/wiki/Marie_Curie" then .accept "words" ["/wiki/Paris"]
  else if u = "/wiki/X" then .fetchFail
  else .notScientist

/-- Witness for `quota_termination`: a frontier with one failing URL and
one eligible URL and target 1 stops in `DONE_QUOTA` with exactly one
accepted article, and the fetch-failure step leaves the counter at 0. -/
theorem quota_termination_witness :
    (run_loop sample_env 1 3 { queued := ["/wiki/X", "/wiki/Marie_Curie"] } 0 []).stop =
      .doneQuota ∧
    (run_loop sample_env 1 3
        { queued := ["/wiki/X", "/wiki/Marie_Curie"] } 0 []).collected = 1 ∧
    run_loop sample_env 1 1 { queued := ["/wiki/X"] } 0 [] =
      run_loop sample_env 1 0
        (mark_completed (log_failure { queued := [] } "/wiki/X" "Download failed")
          "/wiki/X") 0 [] := by
  have h := quota_termination sample_env 1 3
    { queued := ["/wiki/X", "/wiki/Marie_Curie"] } (by decide) (by decide)
    (by decide)
  exact ⟨h.1.1, h.1.2,
    (h.2 0 0 { queued := ["/wiki/X"] } [] "/wiki/X" [] rfl (by decide)
      (by decide)).1 (by decide)⟩

/-- C4: an exception raised while processing the dequeued URL does not
abort the run — the loop recurses into the remaining iterations with the
failed URL appended to the failure log exactly once — and in every branch
(success, fetch failure, classifier rejection, exception) the dequeued URL
ends the iteration marked visited, appearing exactly once in the visited
set if it was not already there. -/
theorem graceful_failure (env : String → PageResult) (target fuel col : Nat)
    (s : CrawlState) (arts : List (String × String × List String))
    (u : String) (rest : List String) (msg : String)
    (hq : s.queued = u :: rest) (hu : u ≠ "") (hcol : col < target) :
    (env u = .raises msg →
      run_loop env target (fuel + 1) s col arts =
        run_loop env target fuel
          (mark_completed (log_failure { s with queued := rest } u msg) u)
          col arts ∧
      (mark_completed (log_failure { s with queued := rest } u msg) u).failed =
        s.failed ++ [{ url := u, reason := msg, timestamp := "" }]) ∧
    (∃ (cs : CrawlState) (col2 : Nat)
        (arts2 : List (String × String × List String)),
      run_loop env target (fuel + 1) s col arts =
        run_loop env target fuel cs col2 arts2 ∧
      u ∈ cs.completed ∧
      (u ∉ s.completed → cs.completed.count u = 1)) := by
  constructor
  · intro henv
    refine ⟨run_loop_step_raises env target fuel col s arts u rest msg hq hu hcol henv, ?_⟩
    rw [mark_completed_failed]
    rfl
  · cases henv : env u with
    | fetchFail =>
      exact ⟨_, _, _,
        run_loop_step_fetchFail env target fuel col s arts u rest hq hu hcol henv,
        mark_completed_mem _ u, fun hnc => mark_completed_count _ u hnc⟩
    | notScientist =>
      exact ⟨_, _, _,
        run_loop_step_notScientist env target fuel col s arts u rest hq hu hcol henv,
        mark_completed_mem _ u, fun hnc => mark_completed_count _ u hnc⟩
    | raises msg2 =>
      exact ⟨_, _, _,
        run_loop_step_raises env target fuel col s arts u rest msg2 hq hu hcol henv,
        mark_completed_mem _ u, fun hnc => mark_completed_count _ u hnc⟩
    | accept w links =>
      refine ⟨_, _, _,
        run_loop_step_accept env target fuel col s arts u rest w links hq hu hcol henv,
        mark_completed_mem _ u, fun hnc => mark_completed_count _ u ?_⟩
      rw [add_urls_completed]
      exact hnc

/-- A concrete environment whose only interesting page raises while being
processed. -/
def failing_env : String → PageResult := fun u =>
  if u = "/wiki/Y" then .raises "boom" else .notScientist

/-- Witness for `graceful_failure`: one raising URL is logged once and the
loop recursion continues with the same counter. -/
theorem graceful_failure_witness :
    run_loop failing_env 1 1 { queued := ["/wiki/Y"] } 0 [] =
      run_loop failing_env 1 0
        (mark_completed (log_failure { queued := [] } "/wiki/Y" "boom") "/wiki/Y")
        0 [] ∧
    (mark_completed (log_failure { queued := [] } "/wiki/Y" "boom") "/wiki/Y").failed =
      [] ++ [{ url := "/wiki/Y", reason := "boom", timestamp := "" }] :=
  (graceful_failure failing_env 1 0 0 { queued := ["/wiki/Y"] } [] "/wiki/Y" []
    "boom" rfl (by decide) (by decide)).1 (by decide)

/-- C9: `parse_article` returns `("", [])` on every error path (read
failure, parse exception, missing content container) instead of raising;
consequently an iteration whose page is accepted by the classifier but
parses to `("", [])` still appends an artifact record with an empty words
blob and an empty link list, increments the session-accepted counter, and
adds nothing to the frontier. -/
theorem parse_failure_total (o : ParseOutcome)
    (env : String → PageResult) (target fuel col : Nat) (s : CrawlState)
    (arts : List (String × String × List String)) (u : String)
    (rest : List String)
    (ho : o = .readError ∨ o = .parseRaised ∨ o = .noContent)
    (hq : s.queued = u :: rest) (hu : u ≠ "") (hcol : col < target)
    (henv : env u = .accept "" []) :
    parse_article o = ("", []) ∧
    run_loop env target (fuel + 1) s col arts =
      run_loop env target fuel (mark_completed { s with queued := rest } u)
        (col + 1) (arts ++ [(extract_slug u, "", [])]) ∧
    (mark_completed { s with queued := rest } u).queued = rest := by
  refine ⟨?_, ?_, mark_completed_queued _ u⟩
  · rcases ho with h | h | h <;> rw [h] <;> rfl
  · exact run_loop_step_accept env target fuel col s arts u rest "" [] hq hu hcol henv

/-- A concrete environment whose only interesting page is accepted by the
classifier but parses to the empty record. -/
def empty_parse_env : String → PageResult := fun u =>
  if u = "/wiki/Z" then .accept "" [] else .notScientist

/-- Witness for `parse_failure_total` at a concrete parse failure and a
concrete accepted-but-empty page. -/
theorem parse_failure_total_witness :
    parse_article .readError = ("", []) ∧
    run_loop empty_parse_env 1 1 { queued := ["/wiki/Z"] } 0 [] =
      run_loop empty_parse_env 1 0
        (mark_completed { queued := [] } "/wiki/Z") 1
        ([] ++ [(extract_slug "/wiki/Z", "", [])]) ∧
    (mark_completed ({ queued := [] } : CrawlState) "/wiki/Z").queued = [] :=
  parse_failure_total .readError empty_parse_env 1 0 0 { queued := ["/wiki/Z"] }
    [] "/wiki/Z" [] (Or.inl rfl) rfl (by decide) (by decide) (by decide)

/-- C10: after loading a checkpoint, the bootstrap seeds are enqueued iff
both the frontier and the visited set are empty; for a loaded state with an
empty frontier but a non-empty visited set nothing is reseeded, the first
`get_next_url` returns `none` leaving the state unchanged, and the run
stops immediately with `DONE_EMPTY` and zero articles collected. -/
theorem seed_only_when_fresh (loaded : Option CrawlState)
    (env : String → PageResult) (target fuel : Nat) :
    ((load_progress loaded).queued = [] → (load_progress loaded).completed ≠ [] →
      crawler_init loaded = load_progress loaded ∧
      get_next_url (load_progress loaded) = (none, load_progress loaded) ∧
      (0 < target →
        run_loop env target (fuel + 1) (crawler_init loaded) 0 [] =
          ⟨load_progress loaded, 0, [], .doneEmpty⟩)) ∧
    ((load_progress loaded).queued = [] → (load_progress loaded).completed = [] →
      (crawler_init loaded).queued = seed_urls) ∧
    (¬((load_progress loaded).queued = [] ∧ (load_progress loaded).completed = []) →
      crawler_init loaded = load_progress loaded) := by
  refine ⟨?_, ?_, ?_⟩
  · intro hq hc
    have hinit : crawler_init loaded = load_progress loaded := by
      rw [crawler_init_eq, if_neg (fun h => hc h.2)]
    refine ⟨hinit, get_next_url_nil _ hq, ?_⟩
    intro htarget
    rw [hinit]
    exact run_loop_empty_stop env target fuel 0 _ [] (by omega) hq
  · intro hq hc
    rw [crawler_init_eq, if_pos ⟨hq, hc⟩]
    exact add_urls_seed _ hq hc
  · intro h
    rw [crawler_init_eq, if_neg h]

/-- Witness for `seed_only_when_fresh`: a checkpoint with an empty frontier
and one visited URL is not reseeded and stops immediately, while a fresh
crawler gets the four seeds. -/
theorem seed_only_when_fresh_witness :
    crawler_init (some { completed := ["/wiki/A"] }) =
      ({ completed := ["/wiki/A"] } : CrawlState) ∧
    get_next_url ({ completed := ["/wiki/A"] } : CrawlState) =
      (none, { completed := ["/wiki/A"] }) ∧
    run_loop (fun _ => .notScientist) 1 1
        (crawler_init (some { completed := ["/wiki/A"] })) 0 [] =
      ⟨{ completed := ["/wiki/A"] }, 0, [], .doneEmpty⟩ ∧
    (crawler_init none).queued = seed_urls := by
  have h1 := (seed_only_when_fresh (some { completed := ["/wiki/A"] })
    (fun _ => .notScientist) 1 0).1 rfl (by decide)
  have h2 := (seed_only_when_fresh none (fun _ => .notScientist) 1 0).2.1 rfl rfl
  exact ⟨h1.1, h1.2.1, h1.2.2 (by decide), h2⟩
